import Mathlib

/-!
Verification of the library-management repository's core layer:
validators (`model/tools/validators.py`), entities (`model/entity/*.py`),
the session scope (`model/da/session.py`), the generic repository
(`model/da/base_access.py`), the report queries (`model/da/reports.py`)
and the per-row degrade policy of `controller/report_controller.py`.

Python runtime values relevant to the validators are modelled by `PyVal`;
machine-level detail (interning, object identity) is irrelevant here.
-/

namespace LibMgmt

/-- A calendar-date triple as carried by `datetime.date`. -/
structure PyDate where
  year : Nat
  month : Nat
  day : Nat
deriving DecidableEq, Repr

/-- Gregorian leap-year rule used by `datetime`. -/
def isLeap (y : Nat) : Bool :=
  (y % 4 == 0 && y % 100 != 0) || (y % 400 == 0)

/-- Length of a month under `datetime`'s proleptic Gregorian calendar. -/
def daysInMonth (y m : Nat) : Nat :=
  if m == 2 then (if isLeap y then 29 else 28)
  else if m == 4 || m == 6 || m == 9 || m == 11 then 30
  else 31

/-- Resolvable calendar date: exactly the triples `datetime.date` accepts
(`MINYEAR = 1`, `MAXYEAR = 9999`). -/
def dateOk (d : PyDate) : Bool :=
  1 ≤ d.year && d.year ≤ 9999 &&
  1 ≤ d.month && d.month ≤ 12 &&
  1 ≤ d.day && d.day ≤ daysInMonth d.year d.month

/-- A `datetime.date` object. The Python `date` type cannot hold an
unresolvable triple (its constructor validates), so the embedded payload
carries that invariant. -/
def PyDateObj : Type := { d : PyDate // dateOk d = true }

instance : DecidableEq PyDateObj := Subtype.instDecidableEq

/-- Python runtime values that can reach the validators: `None`, `int`,
`bool` (a distinct constructor because `bool` is a subclass of `int` with
its own identity), `str` and `datetime.date`. -/
inductive PyVal : Type where
  | none
  | int (n : Int)
  | bool (b : Bool)
  | str (s : String)
  | date (d : PyDateObj)
deriving DecidableEq

/-- `isinstance(v, int)`: true for `int` and also for `bool`, which is a
subclass of `int` in Python. -/
def pyIsInt : PyVal → Bool
  | .int _ => true
  | .bool _ => true
  | _ => false

/-- Numeric value used when an `int`-like value is compared with `> 0`
(`True` counts as 1, `False` as 0). -/
def pyIntValue : PyVal → Int
  | .int n => n
  | .bool b => if b then 1 else 0
  | _ => 0

/-- The character set matched by Python's `\s` in a `str` pattern. -/
def pySpaceChar (c : Char) : Bool :=
  c = ' ' || c = '\t' || c = '\n' || c = '\x0d' || c = '\x0b' || c = '\x0c'
  || (0x1c ≤ c.val && c.val ≤ 0x1f) || c.val = 0x85 || c.val = 0xa0
  || c.val = 0x1680 || (0x2000 ≤ c.val && c.val ≤ 0x200a)
  || c.val = 0x2028 || c.val = 0x2029 || c.val = 0x202f || c.val = 0x205f
  || c.val = 0x3000

/-- Characters of the class `[a-zA-Z\s\.]` in `name_validator`'s pattern. -/
def nameChar (c : Char) : Bool :=
  c.isAlpha || pySpaceChar c || c = '.'

/-- Characters of the class `[a-zA-Z0-9\s]` in `title_validator`'s pattern. -/
def titleChar (c : Char) : Bool :=
  c.isAlpha || c.isDigit || pySpaceChar c

/-- Semantics of Python's `re.match(r"^[C]{lo,hi}$", s)` for a character
class `C`: a prefix of `k ∈ [lo,hi]` class characters followed by `$`,
where `$` matches at the end of the string or just before a trailing
newline (the documented behaviour of `$` outside MULTILINE mode). -/
def pyCharClassMatch (cls : Char → Bool) (lo hi : Nat) (s : List Char) : Bool :=
  (decide (lo ≤ s.length) && decide (s.length ≤ hi) && s.all cls)
  || (match s.getLast? with
      | some c =>
          decide (c = '\n') && decide (lo ≤ s.length - 1)
            && decide (s.length - 1 ≤ hi) && s.dropLast.all cls
      | Option.none => false)

/-- `name_validator(name, message)`: `isinstance(name, str)` and the name
matches `^[a-zA-Z\s\.]{2,30}$`; otherwise raises `ValueError(message)`. -/
def name_validator (name : PyVal) (message : String) : Except String String :=
  match name with
  | .str s =>
      if pyCharClassMatch nameChar 2 30 s.data then .ok s else .error message
  | _ => .error message

/-- `title_validator(title, message)`: `isinstance(title, str)` and the
title matches `^[a-zA-Z0-9\s]{2,30}$`; otherwise raises. -/
def title_validator (title : PyVal) (message : String) : Except String String :=
  match title with
  | .str s =>
      if pyCharClassMatch titleChar 2 30 s.data then .ok s else .error message
  | _ => .error message

/-- `amount_validator(amount, message)`: `isinstance(amount, int) and
amount > 0`, returning the value itself unchanged; otherwise raises. -/
def amount_validator (amount : PyVal) (message : String) : Except String PyVal :=
  if pyIsInt amount && decide (0 < pyIntValue amount) then .ok amount
  else .error message

/-- One digit of an ASCII decimal character. -/
def digitVal? (c : Char) : Option Nat :=
  if c.isDigit then some (c.toNat - 48) else Option.none

/-- `%m` of `_strptime`: the regex alternation `1[0-2]|0[1-9]|[1-9]`,
alternatives tried in order (two-digit forms first); returns the month
and the unconsumed characters. -/
def parseMonth : List Char → Option (Nat × List Char)
  | c1 :: c2 :: rest =>
      match digitVal? c1, digitVal? c2 with
      | some d1, some d2 =>
          if (d1 == 1 && 10 * d1 + d2 ≤ 12) || (d1 == 0 && 1 ≤ d2) then
            some (10 * d1 + d2, rest)
          else if 1 ≤ d1 then some (d1, c2 :: rest)
          else Option.none
      | some d1, Option.none =>
          if 1 ≤ d1 then some (d1, c2 :: rest) else Option.none
      | Option.none, _ => Option.none
  | [c1] =>
      match digitVal? c1 with
      | some d1 => if 1 ≤ d1 then some (d1, ([] : List Char)) else Option.none
      | Option.none => Option.none
  | [] => Option.none

/-- `%d` of `_strptime`: the regex alternation `3[01]|[12]\d|0[1-9]|[1-9]`. -/
def parseDay : List Char → Option (Nat × List Char)
  | c1 :: c2 :: rest =>
      match digitVal? c1, digitVal? c2 with
      | some d1, some d2 =>
          if (d1 == 3 && d2 ≤ 1) || d1 == 1 || d1 == 2 || (d1 == 0 && 1 ≤ d2) then
            some (10 * d1 + d2, rest)
          else if 1 ≤ d1 then some (d1, c2 :: rest)
          else Option.none
      | some d1, Option.none =>
          if 1 ≤ d1 then some (d1, c2 :: rest) else Option.none
      | Option.none, _ => Option.none
  | [c1] =>
      match digitVal? c1 with
      | some d1 => if 1 ≤ d1 then some (d1, ([] : List Char)) else Option.none
      | Option.none => Option.none
  | [] => Option.none

/-- `%Y` of `_strptime`: exactly four decimal digits. -/
def parseYear4 : List Char → Option (Nat × List Char)
  | c1 :: c2 :: c3 :: c4 :: rest =>
      match digitVal? c1, digitVal? c2, digitVal? c3, digitVal? c4 with
      | some d1, some d2, some d3, some d4 =>
          some (1000 * d1 + 100 * d2 + 10 * d3 + d4, rest)
      | _, _, _, _ => Option.none
  | _ => Option.none

/-- `datetime.strptime(s, "%Y-%m-%d")` followed by the full-consumption
check (`unconverted data remains`): four-digit year, literal `-`, month,
literal `-`, day, end of input. -/
def strptimeYmd (s : List Char) : Option PyDate := do
  let (y, r1) ← parseYear4 s
  match r1 with
  | '-' :: r2 => do
      let (m, r3) ← parseMonth r2
      match r3 with
      | '-' :: r4 => do
          let (d, r5) ← parseDay r4
          match r5 with
          | [] => some ⟨y, m, d⟩
          | _ => Option.none
      | _ => Option.none
  | _ => Option.none

/-- `date_validator(date_input, message)`: a `str` is parsed with
`strptime("%Y-%m-%d")` and turned into a `date` (which re-checks calendar
validity, e.g. rejecting Feb 30); a `date` is returned as is; anything
else raises inside the `try`, and every failure is re-raised as a
`ValueError` wrapping the original message (exact Python message text is
abstracted to the wrapped string below). -/
def date_validator (date_input : PyVal) (message : String) :
    Except String PyDateObj :=
  match date_input with
  | .str s =>
      match strptimeYmd s.data with
      | some d =>
          if h : dateOk d = true then .ok ⟨d, h⟩
          else .error "Invalid date format! Use YYYY-MM-DD. day is out of range for month"
      | Option.none =>
          .error ("Invalid date format! Use YYYY-MM-DD. time data does not match format " ++ s)
  | .date d => .ok d
  | _ => .error ("Invalid date format! Use YYYY-MM-DD. " ++ message ++ " Received: non-date")

/-- `Member` (`model/entity/member.py`): columns `id`, `name`, `family`.
`_id` is `None` until first persistence. -/
structure Member where
  _id : Option PyVal
  _name : String
  _family : String
deriving DecidableEq

/-- `Member.__init__`: sets `_id = None`, then assigns `name` and `family`
through the validating property setters (raising aborts construction). -/
def Member.new (name family : PyVal) : Except String Member := do
  let n ← name_validator name "Invalid name!"
  let f ← name_validator family "Invalid family!"
  Except.ok { _id := Option.none, _name := n, _family := f }

/-- The `name` property setter of `Member`. -/
def Member.setName (m : Member) (value : PyVal) : Except String Member := do
  let n ← name_validator value "Invalid name!"
  Except.ok { m with _name := n }

/-- The `family` property setter of `Member`. -/
def Member.setFamily (m : Member) (value : PyVal) : Except String Member := do
  let f ← name_validator value "Invalid family!"
  Except.ok { m with _family := f }

/-- The `id` property setter of `Member`: stores exactly what
`amount_validator` returns. -/
def Member.setId (m : Member) (value : PyVal) : Except String Member := do
  let i ← amount_validator value "Invalid id!"
  Except.ok { m with _id := some i }

/-- `Book` (`model/entity/book.py`): columns `id`, `title`, `author`,
`pages`. `_pages` keeps the exact Python value the validator returned. -/
structure Book where
  _id : Option PyVal
  _title : String
  _author : String
  _pages : PyVal
deriving DecidableEq

/-- `Book.__init__`: `_id = None`, then `title`, `author`, `pages` through
the validating setters, in that order. -/
def Book.new (title author pages : PyVal) : Except String Book := do
  let t ← title_validator title "Invalid book title!"
  let a ← name_validator author "Invalid author name!"
  let p ← amount_validator pages "Invalid pages number!"
  Except.ok { _id := Option.none, _title := t, _author := a, _pages := p }

/-- The `title` property setter of `Book`. -/
def Book.setTitle (b : Book) (value : PyVal) : Except String Book := do
  let t ← title_validator value "Invalid book title!"
  Except.ok { b with _title := t }

/-- The `author` property setter of `Book`. -/
def Book.setAuthor (b : Book) (value : PyVal) : Except String Book := do
  let a ← name_validator value "Invalid author name!"
  Except.ok { b with _author := a }

/-- The `pages` property setter of `Book`. -/
def Book.setPages (b : Book) (value : PyVal) : Except String Book := do
  let p ← amount_validator value "Invalid pages number!"
  Except.ok { b with _pages := p }

/-- The `id` property setter of `Book`. -/
def Book.setId (b : Book) (value : PyVal) : Except String Book := do
  let i ← amount_validator value "Invalid id!"
  Except.ok { b with _id := some i }

/-- An argument position that expects an instance of `α`: Python `None`,
a proper instance, or any other object (`isinstance` is false for the
first and last). -/
inductive Ref (α : Type) where
  | null
  | inst (a : α)
  | other (v : PyVal)
deriving DecidableEq

/-- The `isinstance(x, T)` test on a reference argument. -/
def Ref.isInst : Ref α → Bool
  | .inst _ => true
  | _ => false

/-- `find_by_id` hands its `Optional[T]` straight to `Borrow(...)`:
`None` stays `None`, a found entity is a proper instance. -/
def Ref.ofOption : Option α → Ref α
  | some a => .inst a
  | Option.none => .null

/-- `Borrow` (`model/entity/borrow.py`): holds the relationship targets
set in `__init__` plus the validated dates; `_return_date` defaults to
`None` ("not yet returned"). -/
structure Borrow where
  _id : Option PyVal
  member : Member
  book : Book
  _borrow_date : PyDateObj
  _return_date : Option PyDateObj
deriving DecidableEq

/-- `Borrow.__init__`: `_id = None`; `isinstance(member, Member)` checked
before the member is stored, then `isinstance(book, Book)`, then the
`borrow_date` setter validates. Every failure raises before the object
exists, hence before any persistence attempt. -/
def Borrow.new (member : Ref Member) (book : Ref Book) (borrow_date : PyVal) :
    Except String Borrow :=
  match member with
  | .inst m =>
      match book with
      | .inst b => do
          let d ← date_validator borrow_date "Invalid borrow date!"
          Except.ok { _id := Option.none, member := m, book := b,
                      _borrow_date := d, _return_date := Option.none }
      | _ => .error "Book must be a valid Book object!"
  | _ => .error "Member must be a valid Member object!"

/-- The `borrow_date` property setter of `Borrow`. -/
def Borrow.setBorrowDate (br : Borrow) (value : PyVal) : Except String Borrow := do
  let d ← date_validator value "Invalid borrow date!"
  Except.ok { br with _borrow_date := d }

/-- The `return_date` property setter of `Borrow`. -/
def Borrow.setReturnDate (br : Borrow) (value : PyVal) : Except String Borrow := do
  let d ← date_validator value "Invalid return date!"
  Except.ok { br with _return_date := some d }

/-- The `id` property setter of `Borrow`. -/
def Borrow.setId (br : Borrow) (value : PyVal) : Except String Borrow := do
  let i ← amount_validator value "Invalid borrow id !"
  Except.ok { br with _id := some i }

/-- Observable operations a session performs on its lifecycle. -/
inductive SessOp where
  | commit
  | rollback
  | close
deriving DecidableEq, Repr

/-- A SQLAlchemy session over a store of type `δ`: the durable store
`db`, the session-local view `staged` (uncommitted work), whether the
session was closed, and the trace of lifecycle operations issued. -/
structure Sess (δ : Type) where
  db : δ
  staged : δ
  closed : Bool
  trace : List SessOp

/-- `Session()`: a fresh session over the current store; nothing staged,
nothing issued. -/
def Sess.fresh (db : δ) : Sess δ :=
  { db := db, staged := db, closed := false, trace := [] }

/-- `session.commit()`: makes the staged work durable. -/
def Sess.commit (s : Sess δ) : Sess δ :=
  { s with db := s.staged, trace := s.trace ++ [.commit] }

/-- `session.rollback()`: discards the staged work. -/
def Sess.rollback (s : Sess δ) : Sess δ :=
  { s with staged := s.db, trace := s.trace ++ [.rollback] }

/-- `session.close()`: releases the unit of work. -/
def Sess.close (s : Sess δ) : Sess δ :=
  { s with closed := true, trace := s.trace ++ [.close] }

/-- Python's `try: ... except Exception: ... finally: ...` over a session
state: the handler runs only on error, the finaliser runs on every exit
path. -/
def tryExceptFinally (body : Sess δ → Sess δ × Except ε α)
    (handler : Sess δ → ε → Sess δ × Except ε α)
    (fin : Sess δ → Sess δ) (s : Sess δ) : Sess δ × Except ε α :=
  match body s with
  | (s1, .ok a) => (fin s1, .ok a)
  | (s1, .error e) =>
      match handler s1 e with
      | (s2, r) => (fin s2, r)

/-- `get_session()` (`model/da/session.py`): open a session, run the
body; on normal completion `commit`, on any exception `rollback` and
re-raise the same exception, and `close` in the `finally` block on every
path. -/
def get_session (db : δ) (body : Sess δ → Sess δ × Except ε α) :
    Sess δ × Except ε α :=
  tryExceptFinally
    (fun s =>
      match body s with
      | (s1, .ok a) => (s1.commit, .ok a)
      | (s1, .error e) => (s1, .error e))
    (fun s e => (s.rollback, .error e))
    Sess.close
    (Sess.fresh db)

/-- "Has an identity field" capability of the generic repository:
read the raw `_id` attribute, and write the store-generated integer key
back onto it (what `session.refresh` does after an INSERT). -/
class HasId (α : Type) where
  getIdVal : α → Option PyVal
  setIdNat : α → Nat → α

/-- Numeric key a stored `_id` value denotes for point lookups
(`bool` compares equal to its numeric value in Python and in SQL). -/
def pyNatKey : PyVal → Option Nat
  | .int n => if 0 ≤ n then some n.toNat else Option.none
  | .bool b => some (if b then 1 else 0)
  | _ => Option.none

/-- The primary-key value of a row, if it has one. -/
def tkey [HasId α] (e : α) : Option Nat :=
  (HasId.getIdVal e).bind pyNatKey

/-- One entity table: its rows and the autoincrement counter the store
will hand to the next INSERT. -/
structure Table (α : Type) where
  rows : List α
  nextId : Nat

/-- A row is well-formed for counter `n` when its key exists, is
positive, and was generated by an earlier counter value. -/
def rowOk [HasId α] (n : Nat) (e : α) : Bool :=
  match tkey e with
  | some k => decide (0 < k) && decide (k < n)
  | Option.none => false

/-- Store invariant maintained by an autoincrement primary key: a
positive counter, every row keyed below it, and pairwise distinct keys. -/
def Table.wf [HasId α] (t : Table α) : Bool :=
  decide (0 < t.nextId) && t.rows.all (rowOk t.nextId)
    && decide ((t.rows.map tkey).Nodup)

/-- `DataAccess.save` (`model/da/base_access.py`): INSERT the entity,
let the store assign the autoincrement key, refresh it onto the entity
and return the detached entity. -/
def DataAccess.save [HasId α] (t : Table α) (entity : α) : Table α × α :=
  let e := HasId.setIdNat entity t.nextId
  ({ rows := t.rows ++ [e], nextId := t.nextId + 1 }, e)

/-- `DataAccess.find_by_id`: `session.get` point lookup by primary key;
absence is a normal outcome. -/
def DataAccess.find_by_id [HasId α] (t : Table α) (id : Nat) : Option α :=
  t.rows.find? (fun e => tkey e == some id)

/-- `DataAccess.remove_by_id`: `session.get` first; if absent return
`None` (no error), else DELETE the row and return the pre-delete
snapshot. -/
def DataAccess.remove_by_id [HasId α] (t : Table α) (id : Nat) :
    Table α × Option α :=
  match t.rows.find? (fun e => tkey e == some id) with
  | some e => ({ t with rows := t.rows.eraseP (fun x => tkey x == some id) }, some e)
  | Option.none => (t, Option.none)

instance instHasIdBook : HasId Book where
  getIdVal b := b._id
  setIdNat b n := { b with _id := some (.int (n : Int)) }

instance instHasIdMember : HasId Member where
  getIdVal m := m._id
  setIdNat m n := { m with _id := some (.int (n : Int)) }

/-- A row of the `borrows` table as the store keeps it: the foreign-key
columns `_member_id` / `_book_id` filled at flush time from the
relationship targets' keys, plus the date columns. -/
structure BorrowRow where
  _id : Option PyVal
  _member_id : Nat
  _book_id : Nat
  _borrow_date : PyDateObj
  _return_date : Option PyDateObj
deriving DecidableEq

instance instHasIdBorrowRow : HasId BorrowRow where
  getIdVal r := r._id
  setIdNat r n := { r with _id := some (.int (n : Int)) }

/-- `get_books_never_borrowed` (`model/da/reports.py`): anti-join —
books whose `_id` is not among the distinct `_book_id` values of the
`borrows` table. -/
def get_books_never_borrowed (books : List Book) (borrows : List BorrowRow) :
    List Book :=
  books.filter (fun bk => !(borrows.any (fun br => tkey bk == some br._book_id)))

/-- One group of the `get_book_borrow_counts` query: a book inner-joined
to its borrow rows, with `count(Borrow._book_id)`; a book with no borrow
row contributes nothing to the inner join. -/
def bookCountRow (borrows : List BorrowRow) (bk : Book) :
    Option (Nat × String × String × Nat) :=
  match tkey bk with
  | some i =>
      let c := (borrows.filter (fun br => br._book_id == i)).length
      if c == 0 then Option.none else some (i, bk._title, bk._author, c)
  | Option.none => Option.none

/-- `get_book_borrow_counts` (`model/da/reports.py`): `books` inner-joined
to `borrows` on `_book_id == _id`, grouped per book, one tuple
`(book_id, title, author, borrow_times)` per group, ordered by count
descending (tie order is store-defined; insertion sort realises one such
order). -/
def get_book_borrow_counts (books : List Book) (borrows : List BorrowRow) :
    List (Nat × String × String × Nat) :=
  List.insertionSort (fun a b : Nat × String × String × Nat => b.2.2.2 ≤ a.2.2.2)
    (books.filterMap (bookCountRow borrows))

/-- The count a report result shows for book identity `i`; a book with
no tuple in the grouped result is reported nowhere, i.e. count 0. -/
def reportCount (out : List (Nat × String × String × Nat)) (i : Nat) : Nat :=
  match out.find? (fun r => r.1 == i) with
  | some r => r.2.2.2
  | Option.none => 0

/-- `add_borrow` (`controller/borrow_controller.py`), persistence part:
construct the `Borrow` from the two looked-up references, and only if
construction succeeded flush it to the `borrows` table (`mkRow` is the
ORM mapping of the constructed object to its row). An exception during
construction leaves the table untouched. -/
def add_borrow_flow (borrows : Table BorrowRow) (mkRow : Borrow → BorrowRow)
    (member : Ref Member) (book : Ref Book) (borrow_date : PyVal) :
    Table BorrowRow × Option BorrowRow :=
  match Borrow.new member book borrow_date with
  | .error _ => (borrows, Option.none)
  | .ok nb =>
      match DataAccess.save borrows (mkRow nb) with
      | (t, r) => (t, some r)

/-- Zero-padded two-digit field of `strftime`. -/
def pad2 (n : Nat) : String :=
  if n < 10 then "0" ++ toString n else toString n

/-- Zero-padded four-digit year field of `strftime("%Y")`. -/
def pad4 (n : Nat) : String :=
  if n < 10 then "000" ++ toString n
  else if n < 100 then "00" ++ toString n
  else if n < 1000 then "0" ++ toString n
  else toString n

/-- `d.strftime("%Y-%m-%d")`. -/
def strftimeYmd (d : PyDateObj) : String :=
  pad4 d.val.year ++ "-" ++ pad2 d.val.month ++ "-" ++ pad2 d.val.day

/-- A `Borrow` row as fetched by a report query with its eager joins:
either related entity may have failed to materialise (`None`), and the
date columns are whatever the store holds. -/
structure Fetched where
  book : Option Book
  member : Option Member
  _borrow_date : Option PyDateObj
  _return_date : Option PyDateObj
deriving DecidableEq

/-- Reading `x.id` in Python yields the raw `_id`, surfacing `None` as
the `None` object. -/
def idVal (o : Option PyVal) : PyVal :=
  o.getD .none

/-- The tuple body of `get_currently_borrowed_info`'s `try` block:
`(b.book.id, b.book.title, b.member.id, b.member.name, b.member.family,
b.borrow_date.strftime("%Y-%m-%d") if b.borrow_date else "-")`.
Attribute access on a missing joined entity raises (`AttributeError` on
`None`), exactly the per-row failure the policy catches. -/
def currentTuple (b : Fetched) : Except String (List PyVal) := do
  let bk ← match b.book with
    | some x => Except.ok x
    | Option.none => Except.error "AttributeError: NoneType has no attribute id"
  let mb ← match b.member with
    | some x => Except.ok x
    | Option.none => Except.error "AttributeError: NoneType has no attribute id"
  Except.ok [idVal bk._id, .str bk._title, idVal mb._id, .str mb._name,
    .str mb._family,
    .str (match b._borrow_date with
          | some d => strftimeYmd d
          | Option.none => "-")]

/-- The error-marker row of `get_currently_borrowed_info`. -/
def currentErrRow : List PyVal :=
  [.str "[Error]", .str "", .str "", .str "", .str "", .str ""]

/-- `get_currently_borrowed_info` (`controller/report_controller.py`):
per fetched row, build the display tuple inside `try`; on any exception
append the error-marker row instead and continue with the next row. -/
def get_currently_borrowed_info (borrows : List Fetched) : List (List PyVal) :=
  borrows.map (fun b =>
    match currentTuple b with
    | .ok t => t
    | .error _ => currentErrRow)

/-- The tuple body of `get_report_all_borrows_info`'s `try` block:
`(b.member.id, b.member.name, b.member.family, b.book.id, b.book.title,
b.book.author, b.borrow_date, b.return_date)`. -/
def allBorrowsTuple (b : Fetched) : Except String (List PyVal) := do
  let mb ← match b.member with
    | some x => Except.ok x
    | Option.none => Except.error "AttributeError: NoneType has no attribute id"
  let bk ← match b.book with
    | some x => Except.ok x
    | Option.none => Except.error "AttributeError: NoneType has no attribute id"
  Except.ok [idVal mb._id, .str mb._name, .str mb._family, idVal bk._id,
    .str bk._title, .str bk._author,
    (match b._borrow_date with
     | some d => .date d
     | Option.none => .none),
    (match b._return_date with
     | some d => .date d
     | Option.none => .none)]

/-- The error-marker row of `get_report_all_borrows_info`. -/
def allBorrowsErrRow : List PyVal :=
  [.str "[Error]", .str "", .str "", .str "", .str "", .str "", .str "", .str ""]

/-- `get_report_all_borrows_info` (`controller/report_controller.py`):
same per-row degrade policy over the full borrow history. -/
def get_report_all_borrows_info (borrows : List Fetched) : List (List PyVal) :=
  borrows.map (fun b =>
    match allBorrowsTuple b with
    | .ok t => t
    | .error _ => allBorrowsErrRow)

/-- Field invariant of a `Member` as enforced by its validators. -/
def nameOk (s : String) : Bool :=
  pyCharClassMatch nameChar 2 30 s.data

/-- Field invariant of a `Book` title as enforced by `title_validator`. -/
def titleOk (s : String) : Bool :=
  pyCharClassMatch titleChar 2 30 s.data

/-- Field invariant of a `pages` (or id) value: an `int` strictly
greater than zero. -/
def pagesOk (v : PyVal) : Bool :=
  pyIsInt v && decide (0 < pyIntValue v)

/-- In-memory validity of a `Member`. -/
def Member.valid (m : Member) : Bool :=
  nameOk m._name && nameOk m._family

/-- In-memory validity of a `Book`. -/
def Book.valid (b : Book) : Bool :=
  titleOk b._title && nameOk b._author && pagesOk b._pages

/-- Thirty letters followed by a newline: 31 characters. -/
def longName31 : String :=
  ⟨List.replicate 30 'a' ++ ['\n']⟩

/-- A concrete book as constructed by `Book("Python 101", "Michael", 300)`. -/
def bookA : Book :=
  { _id := Option.none, _title := "Python 101", _author := "Michael", _pages := .int 300 }

/-- `bookA` as persisted with identity 1. -/
def bookA1 : Book :=
  { bookA with _id := some (.int 1) }

/-- A store whose `books` table holds `bookA1` and whose autoincrement
counter is at 2. -/
def booksT : Table Book :=
  { rows := [bookA1], nextId := 2 }

/-- The calendar date 2024-04-10. -/
def dateD : PyDateObj :=
  ⟨⟨2024, 4, 10⟩, by decide⟩

/-- A borrow row referencing member 1 and book 1. -/
def rowR : BorrowRow :=
  { _id := Option.none, _member_id := 1, _book_id := 1,
    _borrow_date := dateD, _return_date := Option.none }

/-- An empty `borrows` table. -/
def emptyBorrows : Table BorrowRow :=
  { rows := [], nextId := 1 }

/-- A concrete member with identity 1. -/
def memberA : Member :=
  { _id := some (.int 1), _name := "Alice", _family := "Smith" }

/-- A fetched borrow whose joins both resolved. -/
def fetchedGood : Fetched :=
  { book := some bookA1, member := some memberA,
    _borrow_date := some dateD, _return_date := Option.none }

/-- A fetched borrow whose book join failed to materialise. -/
def fetchedBad : Fetched :=
  { book := Option.none, member := some memberA,
    _borrow_date := some dateD, _return_date := Option.none }

/-- A session body that stages the store value 5 and completes normally. -/
def okBody : Sess Nat → Sess Nat × Except String Nat :=
  fun s => ({ s with staged := 5 }, Except.ok 7)

/-- A session body that raises. -/
def errBody : Sess Nat → Sess Nat × Except String Nat :=
  fun s => (s, Except.error "boom")

deriving instance DecidableEq for Except

theorem except_bind_ok {ε α β : Type} (a : α) (f : α → Except ε β) :
    ((Except.ok a : Except ε α) >>= f) = f a := rfl

theorem except_bind_error {ε α β : Type} (e : ε) (f : α → Except ε β) :
    ((Except.error e : Except ε α) >>= f) = Except.error e := rfl

theorem name_validator_ok {v : PyVal} {msg s : String}
    (h : name_validator v msg = Except.ok s) : nameOk s = true := by
  cases v with
  | str s0 =>
      by_cases hc : pyCharClassMatch nameChar 2 30 s0.data = true
      · simp only [name_validator, if_pos hc, Except.ok.injEq] at h
        subst h; exact hc
      · rw [name_validator, if_neg hc] at h
        cases h
  | none => simp [name_validator] at h
  | int n => simp [name_validator] at h
  | bool b => simp [name_validator] at h
  | date d => simp [name_validator] at h

theorem title_validator_ok {v : PyVal} {msg s : String}
    (h : title_validator v msg = Except.ok s) : titleOk s = true := by
  cases v with
  | str s0 =>
      by_cases hc : pyCharClassMatch titleChar 2 30 s0.data = true
      · simp only [title_validator, if_pos hc, Except.ok.injEq] at h
        subst h; exact hc
      · rw [title_validator, if_neg hc] at h
        cases h
  | none => simp [title_validator] at h
  | int n => simp [title_validator] at h
  | bool b => simp [title_validator] at h
  | date d => simp [title_validator] at h

theorem amount_validator_ok {v p : PyVal} {msg : String}
    (h : amount_validator v msg = Except.ok p) : pagesOk p = true := by
  unfold amount_validator at h
  by_cases hc : (pyIsInt v && decide (0 < pyIntValue v)) = true
  · rw [if_pos hc] at h
    cases h
    exact hc
  · rw [if_neg hc] at h
    cases h

theorem find?_append_of_none {α : Type} {l1 : List α} (l2 : List α)
    {p : α → Bool} (h : l1.find? p = Option.none) :
    (l1 ++ l2).find? p = l2.find? p := by
  rw [List.find?_append, h, Option.none_or]

/-- C1: for every body executed inside `get_session`: a body that
completes normally has its staged work committed and the result is
returned unchanged; a body that raises has its staged work rolled back
(the durable store keeps the body's session `db`) and the same error is
re-raised; on both paths the session ends closed and the very last
lifecycle operation issued is `close`. -/
theorem get_session_scope_contract {δ ε α : Type} (db : δ)
    (body : Sess δ → Sess δ × Except ε α) :
    (∀ s1 a, body (Sess.fresh db) = (s1, Except.ok a) →
        get_session db body = (s1.commit.close, Except.ok a)
        ∧ (get_session db body).1.db = s1.staged
        ∧ (get_session db body).1.trace = s1.trace ++ [SessOp.commit, SessOp.close])
  ∧ (∀ s1 e, body (Sess.fresh db) = (s1, Except.error e) →
        get_session db body = (s1.rollback.close, Except.error e)
        ∧ (get_session db body).1.db = s1.db
        ∧ (get_session db body).1.staged = s1.db
        ∧ (get_session db body).1.trace = s1.trace ++ [SessOp.rollback, SessOp.close])
  ∧ (get_session db body).1.closed = true
  ∧ (get_session db body).1.trace.getLast? = some SessOp.close := by
  rcases hb : body (Sess.fresh db) with ⟨s1, r⟩
  cases r with
  | ok a =>
      have hg : get_session db body = (s1.commit.close, Except.ok a) := by
        simp [get_session, tryExceptFinally, hb]
      refine ⟨?_, ?_, ?_, ?_⟩
      · rintro s1' a' h'
        cases h'
        refine ⟨hg, ?_, ?_⟩ <;>
          simp [hg, Sess.commit, Sess.close, List.append_assoc]
      · rintro s1' e' h'
        cases h'
      · simp [hg, Sess.close]
      · simp [hg, Sess.commit, Sess.close, List.getLast?_concat]
  | error e =>
      have hg : get_session db body = (s1.rollback.close, Except.error e) := by
        simp [get_session, tryExceptFinally, hb]
      refine ⟨?_, ?_, ?_, ?_⟩
      · rintro s1' a' h'
        cases h'
      · rintro s1' e' h'
        cases h'
        refine ⟨hg, ?_, ?_, ?_⟩ <;>
          simp [hg, Sess.rollback, Sess.close, List.append_assoc]
      · simp [hg, Sess.close]
      · simp [hg, Sess.rollback, Sess.close, List.getLast?_concat]

/-- Witness for C1 at a concrete store and two concrete bodies. -/
theorem get_session_scope_contract_witness :
    ((get_session 0 okBody).2 = Except.ok 7
      ∧ (get_session 0 okBody).1.db = 5
      ∧ (get_session 0 okBody).1.closed = true)
    ∧ ((get_session 0 errBody).2 = Except.error "boom"
      ∧ (get_session 0 errBody).1.db = 0
      ∧ (get_session 0 errBody).1.closed = true) := by
  have hok := get_session_scope_contract (δ := Nat) (ε := String) (α := Nat) 0 okBody
  have herr := get_session_scope_contract (δ := Nat) (ε := String) (α := Nat) 0 errBody
  have h1 := hok.1 { db := 0, staged := 5, closed := false, trace := [] } 7 rfl
  have h2 := herr.2.1 { db := 0, staged := 0, closed := false, trace := [] } "boom" rfl
  refine ⟨⟨?_, h1.2.1, hok.2.2.1⟩, ⟨?_, ?_, herr.2.2.1⟩⟩
  · rw [h1.1]
  · rw [h2.1]
  · exact h2.2.1

/-- C2: saving a validly constructed `Book` assigns it the store's next
identity — a positive integer under which nothing was previously stored —
and `find_by_id` at that identity returns the saved entity, its `title`,
`author` and `pages` unchanged. -/
theorem save_find_round_trip (t : Table Book) (title author pages : PyVal)
    (bk : Book) (hwf : t.wf = true)
    (hnew : Book.new title author pages = Except.ok bk) :
    0 < t.nextId
    ∧ DataAccess.find_by_id t t.nextId = Option.none
    ∧ (DataAccess.save t bk).2._id = some (.int (t.nextId : Int))
    ∧ DataAccess.find_by_id (DataAccess.save t bk).1 t.nextId
        = some (DataAccess.save t bk).2
    ∧ (DataAccess.save t bk).2._title = bk._title
    ∧ (DataAccess.save t bk).2._author = bk._author
    ∧ (DataAccess.save t bk).2._pages = bk._pages := by
  unfold Table.wf at hwf
  simp only [Bool.and_eq_true, decide_eq_true_eq, List.all_eq_true] at hwf
  obtain ⟨⟨hpos, hrows⟩, _⟩ := hwf
  have hfind : t.rows.find? (fun e => tkey e == some t.nextId) = Option.none := by
    refine List.find?_eq_none.mpr ?_
    intro e he
    have := hrows e he
    unfold rowOk at this
    rcases hk : tkey e with _ | k
    · rw [hk] at this; cases this
    · rw [hk] at this
      simp only [Bool.and_eq_true, decide_eq_true_eq] at this
      simp [hk, Nat.ne_of_lt this.2]
  have hkey : tkey (HasId.setIdNat bk t.nextId) = some t.nextId := by
    simp [tkey, HasId.setIdNat, HasId.getIdVal, instHasIdBook, pyNatKey,
      Int.toNat_natCast]
  refine ⟨hpos, hfind, rfl, ?_, rfl, rfl, rfl⟩
  show ((t.rows ++ [HasId.setIdNat bk t.nextId]).find?
      (fun e => tkey e == some t.nextId)) = some (HasId.setIdNat bk t.nextId)
  rw [find?_append_of_none _ hfind]
  exact List.find?_cons_of_pos _ (by simp [hkey])

/-- Witness for C2: the concrete round trip of `Book("Python 101",
"Michael", 300)` through the one-row store. -/
theorem save_find_round_trip_witness :
    DataAccess.find_by_id booksT 2 = Option.none
    ∧ DataAccess.find_by_id (DataAccess.save booksT bookA).1 2
        = some (DataAccess.save booksT bookA).2
    ∧ (DataAccess.save booksT bookA).2._pages = bookA._pages := by
  have h := save_find_round_trip booksT (.str "Python 101") (.str "Michael")
    (.int 300) bookA (by decide) (by decide)
  exact ⟨h.2.1, h.2.2.2.1, h.2.2.2.2.2.2⟩

theorem find?_eraseP_key_none {α : Type} [HasId α] (i : Nat) :
    ∀ l : List α, (l.map tkey).Nodup →
      (l.eraseP (fun x => tkey x == some i)).find? (fun x => tkey x == some i)
        = Option.none := by
  intro l
  induction l with
  | nil => intro _; rfl
  | cons e tl ih =>
      intro hnd
      rw [List.map_cons, List.nodup_cons] at hnd
      obtain ⟨hne, hnd'⟩ := hnd
      by_cases hp : (tkey e == some i) = true
      · rw [List.eraseP_cons_of_pos (p := fun x => tkey x == some i) hp]
        refine List.find?_eq_none.mpr ?_
        intro x hx hpx
        have hxe : tkey x = some i := by simpa using hpx
        have hee : tkey e = some i := by simpa using hp
        exact hne (by rw [hee, ← hxe]; exact List.mem_map_of_mem _ hx)
      · rw [List.eraseP_cons_of_neg (p := fun x => tkey x == some i) (by simpa using hp)]
        rw [List.find?_cons_of_neg _ (by simpa using hp)]
        exact ih hnd'

/-- C4: on a well-formed store, `remove_by_id` of an absent identity
returns the untouched table and `None` (not an error); of a present
identity it returns the pre-delete snapshot, and `find_by_id` on the
resulting table comes back empty. -/
theorem remove_by_id_contract {α : Type} [HasId α] (t : Table α) (i : Nat)
    (hwf : t.wf = true) :
    (DataAccess.find_by_id t i = Option.none →
        DataAccess.remove_by_id t i = (t, Option.none))
  ∧ (∀ e, DataAccess.find_by_id t i = some e →
        (DataAccess.remove_by_id t i).2 = some e
        ∧ DataAccess.find_by_id (DataAccess.remove_by_id t i).1 i
            = Option.none) := by
  have hnd : (t.rows.map tkey).Nodup := by
    unfold Table.wf at hwf
    simp only [Bool.and_eq_true, decide_eq_true_eq] at hwf
    exact hwf.2
  constructor
  · intro h
    unfold DataAccess.find_by_id at h
    unfold DataAccess.remove_by_id
    rw [h]
  · intro e he
    unfold DataAccess.find_by_id at he
    unfold DataAccess.remove_by_id
    rw [he]
    refine ⟨rfl, ?_⟩
    unfold DataAccess.find_by_id
    exact find?_eraseP_key_none i t.rows hnd

/-- Witness for C4: removing identity 5 from the one-row store is a
no-op returning `None`; removing identity 1 returns the stored book and
leaves nothing behind under identity 1. -/
theorem remove_by_id_contract_witness :
    DataAccess.remove_by_id booksT 5 = (booksT, Option.none)
    ∧ (DataAccess.remove_by_id booksT 1).2 = some bookA1
    ∧ DataAccess.find_by_id (DataAccess.remove_by_id booksT 1).1 1
        = Option.none := by
  have h5 := remove_by_id_contract booksT 5 (by decide)
  have h1 := remove_by_id_contract booksT 1 (by decide)
  exact ⟨h5.1 (by decide), (h1.2 bookA1 (by decide)).1,
    (h1.2 bookA1 (by decide)).2⟩

theorem member_new_valid {n f : PyVal} {m : Member}
    (h : Member.new n f = Except.ok m) : Member.valid m = true := by
  unfold Member.new at h
  cases hn : name_validator n "Invalid name!" with
  | error e => rw [hn, except_bind_error] at h; cases h
  | ok s =>
      rw [hn, except_bind_ok] at h
      cases hf : name_validator f "Invalid family!" with
      | error e => rw [hf, except_bind_error] at h; cases h
      | ok s2 =>
          rw [hf, except_bind_ok] at h
          cases h
          simp [Member.valid, Bool.and_eq_true, name_validator_ok hn,
            name_validator_ok hf]

theorem member_setName_valid {m m' : Member} {v : PyVal}
    (h : Member.setName m v = Except.ok m') (hv : Member.valid m = true) :
    Member.valid m' = true := by
  unfold Member.setName at h
  cases hn : name_validator v "Invalid name!" with
  | error e => rw [hn, except_bind_error] at h; cases h
  | ok s =>
      rw [hn, except_bind_ok] at h
      cases h
      unfold Member.valid at hv ⊢
      simp only [Bool.and_eq_true] at hv ⊢
      exact ⟨name_validator_ok hn, hv.2⟩

theorem member_setFamily_valid {m m' : Member} {v : PyVal}
    (h : Member.setFamily m v = Except.ok m') (hv : Member.valid m = true) :
    Member.valid m' = true := by
  unfold Member.setFamily at h
  cases hn : name_validator v "Invalid family!" with
  | error e => rw [hn, except_bind_error] at h; cases h
  | ok s =>
      rw [hn, except_bind_ok] at h
      cases h
      unfold Member.valid at hv ⊢
      simp only [Bool.and_eq_true] at hv ⊢
      exact ⟨hv.1, name_validator_ok hn⟩

theorem book_new_valid {t a p : PyVal} {b : Book}
    (h : Book.new t a p = Except.ok b) : Book.valid b = true := by
  unfold Book.new at h
  cases ht : title_validator t "Invalid book title!" with
  | error e => rw [ht, except_bind_error] at h; cases h
  | ok s1 =>
      rw [ht, except_bind_ok] at h
      cases ha : name_validator a "Invalid author name!" with
      | error e => rw [ha, except_bind_error] at h; cases h
      | ok s2 =>
          rw [ha, except_bind_ok] at h
          cases hp : amount_validator p "Invalid pages number!" with
          | error e => rw [hp, except_bind_error] at h; cases h
          | ok s3 =>
              rw [hp, except_bind_ok] at h
              cases h
              simp [Book.valid, Bool.and_eq_true, title_validator_ok ht,
                name_validator_ok ha, amount_validator_ok hp]

theorem book_setTitle_valid {b b' : Book} {v : PyVal}
    (h : Book.setTitle b v = Except.ok b') (hv : Book.valid b = true) :
    Book.valid b' = true := by
  unfold Book.setTitle at h
  cases ht : title_validator v "Invalid book title!" with
  | error e => rw [ht, except_bind_error] at h; cases h
  | ok s =>
      rw [ht, except_bind_ok] at h
      cases h
      unfold Book.valid at hv ⊢
      simp only [Bool.and_eq_true] at hv ⊢
      exact ⟨⟨title_validator_ok ht, hv.1.2⟩, hv.2⟩

theorem book_setAuthor_valid {b b' : Book} {v : PyVal}
    (h : Book.setAuthor b v = Except.ok b') (hv : Book.valid b = true) :
    Book.valid b' = true := by
  unfold Book.setAuthor at h
  cases ha : name_validator v "Invalid author name!" with
  | error e => rw [ha, except_bind_error] at h; cases h
  | ok s =>
      rw [ha, except_bind_ok] at h
      cases h
      unfold Book.valid at hv ⊢
      simp only [Bool.and_eq_true] at hv ⊢
      exact ⟨⟨hv.1.1, name_validator_ok ha⟩, hv.2⟩

theorem book_setPages_valid {b b' : Book} {v : PyVal}
    (h : Book.setPages b v = Except.ok b') (hv : Book.valid b = true) :
    Book.valid b' = true := by
  unfold Book.setPages at h
  cases hp : amount_validator v "Invalid pages number!" with
  | error e => rw [hp, except_bind_error] at h; cases h
  | ok s =>
      rw [hp, except_bind_ok] at h
      cases h
      unfold Book.valid at hv ⊢
      simp only [Bool.and_eq_true] at hv ⊢
      exact ⟨hv.1, amount_validator_ok hp⟩

theorem borrow_new_date_ok {mr : Ref Member} {br : Ref Book} {d : PyVal}
    {bw : Borrow} (h : Borrow.new mr br d = Except.ok bw) :
    dateOk bw._borrow_date.val = true ∧ bw._return_date = Option.none := by
  unfold Borrow.new at h
  cases mr with
  | inst m =>
      cases br with
      | inst b =>
          dsimp only [] at h
          cases hd : date_validator d "Invalid borrow date!" with
          | error e => rw [hd, except_bind_error] at h; cases h
          | ok dd =>
              rw [hd, except_bind_ok] at h
              cases h
              exact ⟨dd.property, rfl⟩
      | null => cases h
      | other v => cases h
  | null => cases h
  | other v => cases h

theorem borrow_setBorrowDate_ok {bw bw' : Borrow} {v : PyVal}
    (h : Borrow.setBorrowDate bw v = Except.ok bw') :
    dateOk bw'._borrow_date.val = true := by
  unfold Borrow.setBorrowDate at h
  cases hd : date_validator v "Invalid borrow date!" with
  | error e => rw [hd, except_bind_error] at h; cases h
  | ok dd =>
      rw [hd, except_bind_ok] at h
      cases h
      exact dd.property

theorem borrow_setReturnDate_ok {bw bw' : Borrow} {v : PyVal}
    (h : Borrow.setReturnDate bw v = Except.ok bw') :
    ∃ dd, bw'._return_date = some dd ∧ dateOk dd.val = true := by
  unfold Borrow.setReturnDate at h
  cases hd : date_validator v "Invalid return date!" with
  | error e => rw [hd, except_bind_error] at h; cases h
  | ok dd =>
      rw [hd, except_bind_ok] at h
      cases h
      exact ⟨dd, rfl, dd.property⟩

theorem nameOk_length_bounds {s : String} (h : nameOk s = true) :
    2 ≤ s.length ∧ s.length ≤ 31
      ∧ (s.length ≤ 30 ∨ s.data.getLast? = some '\n') := by
  have hL : s.length = s.data.length := rfl
  unfold nameOk pyCharClassMatch at h
  rw [Bool.or_eq_true] at h
  rcases h with h | h
  · simp only [Bool.and_eq_true, decide_eq_true_eq] at h
    rw [hL]
    exact ⟨h.1.1, by omega, Or.inl h.1.2⟩
  · cases hg : s.data.getLast? with
    | none => rw [hg] at h; cases h
    | some c =>
        rw [hg] at h
        simp only [Bool.and_eq_true, decide_eq_true_eq] at h
        obtain ⟨⟨⟨hc, hlo⟩, hhi⟩, _⟩ := h
        subst hc
        rw [hL]
        exact ⟨by omega, by omega, Or.inr rfl⟩

theorem titleOk_length_bounds {s : String} (h : titleOk s = true) :
    2 ≤ s.length ∧ s.length ≤ 31
      ∧ (s.length ≤ 30 ∨ s.data.getLast? = some '\n') := by
  have hL : s.length = s.data.length := rfl
  unfold titleOk pyCharClassMatch at h
  rw [Bool.or_eq_true] at h
  rcases h with h | h
  · simp only [Bool.and_eq_true, decide_eq_true_eq] at h
    rw [hL]
    exact ⟨h.1.1, by omega, Or.inl h.1.2⟩
  · cases hg : s.data.getLast? with
    | none => rw [hg] at h; cases h
    | some c =>
        rw [hg] at h
        simp only [Bool.and_eq_true, decide_eq_true_eq] at h
        obtain ⟨⟨⟨hc, hlo⟩, hhi⟩, _⟩ := h
        subst hc
        rw [hL]
        exact ⟨by omega, by omega, Or.inr rfl⟩

/-- C3 counterexample: the claim's "length 2-30" bound fails. The regex
end anchor `$` also matches just before a trailing newline, so
`Member.__init__` accepts a 31-character name consisting of 30 letters
and a final newline; the constructed member's name has length 31. -/
theorem member_invariant_length_cex :
    Member.new (.str longName31) (.str "ab")
      = Except.ok { _id := Option.none, _name := longName31, _family := "ab" }
    ∧ longName31.length = 31 := by
  constructor
  · rfl
  · rfl

/-- C3 (amended): every mutable field is checked by its validator at
construction and on every assignment through the public setters, so
constructed and mutated entities always satisfy the validator
invariants: Member name/family and Book author pattern-valid, Book
title pattern-valid, pages a positive integer, Borrow dates resolvable
calendar dates — where pattern-validity bounds the length to 2-30
characters, except that a value ending in a newline may reach length 31
(the pattern's end anchor also matches before a trailing newline). -/
theorem entity_validation_invariant :
    (∀ n f m, Member.new n f = Except.ok m → Member.valid m = true)
  ∧ (∀ m v m', Member.setName m v = Except.ok m' →
        Member.valid m = true → Member.valid m' = true)
  ∧ (∀ m v m', Member.setFamily m v = Except.ok m' →
        Member.valid m = true → Member.valid m' = true)
  ∧ (∀ t a p b, Book.new t a p = Except.ok b → Book.valid b = true)
  ∧ (∀ b v b', Book.setTitle b v = Except.ok b' →
        Book.valid b = true → Book.valid b' = true)
  ∧ (∀ b v b', Book.setAuthor b v = Except.ok b' →
        Book.valid b = true → Book.valid b' = true)
  ∧ (∀ b v b', Book.setPages b v = Except.ok b' →
        Book.valid b = true → Book.valid b' = true)
  ∧ (∀ mr br d bw, Borrow.new mr br d = Except.ok bw →
        dateOk bw._borrow_date.val = true ∧ bw._return_date = Option.none)
  ∧ (∀ bw v bw', Borrow.setBorrowDate bw v = Except.ok bw' →
        dateOk bw'._borrow_date.val = true)
  ∧ (∀ bw v bw', Borrow.setReturnDate bw v = Except.ok bw' →
        ∃ dd, bw'._return_date = some dd ∧ dateOk dd.val = true)
  ∧ (∀ s, nameOk s = true → 2 ≤ s.length ∧ s.length ≤ 31
        ∧ (s.length ≤ 30 ∨ s.data.getLast? = some '\n'))
  ∧ (∀ s, titleOk s = true → 2 ≤ s.length ∧ s.length ≤ 31
        ∧ (s.length ≤ 30 ∨ s.data.getLast? = some '\n'))
  ∧ (∀ v, pagesOk v = true → 0 < pyIntValue v) := by
  refine ⟨fun n f m h => member_new_valid h,
    fun m v m' h hv => member_setName_valid h hv,
    fun m v m' h hv => member_setFamily_valid h hv,
    fun t a p b h => book_new_valid h,
    fun b v b' h hv => book_setTitle_valid h hv,
    fun b v b' h hv => book_setAuthor_valid h hv,
    fun b v b' h hv => book_setPages_valid h hv,
    fun mr br d bw h => borrow_new_date_ok h,
    fun bw v bw' h => borrow_setBorrowDate_ok h,
    fun bw v bw' h => borrow_setReturnDate_ok h,
    fun s h => nameOk_length_bounds h,
    fun s h => titleOk_length_bounds h,
    fun v h => ?_⟩
  unfold pagesOk at h
  simp only [Bool.and_eq_true, decide_eq_true_eq] at h
  exact h.2

/-- Witness for amended C3 at concrete entities. -/
theorem entity_validation_invariant_witness :
    Member.valid { _id := Option.none, _name := "John", _family := "Doe" } = true
    ∧ Book.valid bookA = true
    ∧ (2 ≤ ("John Doe" : String).length
        ∧ ("John Doe" : String).length ≤ 31
        ∧ (("John Doe" : String).length ≤ 30
            ∨ ("John Doe" : String).data.getLast? = some '\n')) := by
  refine ⟨entity_validation_invariant.1 (.str "John") (.str "Doe") _ rfl,
    entity_validation_invariant.2.2.2.1 (.str "Python 101") (.str "Michael")
      (.int 300) bookA rfl,
    (entity_validation_invariant.2.2.2.2.2.2.2.2.2.2.1 "John Doe" (by decide))⟩

theorem find?_eq_none_of_all_false {α : Type} {l : List α} {p : α → Bool}
    (h : ∀ x ∈ l, p x = false) : l.find? p = Option.none :=
  List.find?_eq_none.mpr (fun x hx => by simp [h x hx])

theorem find?_of_perm_unique {α : Type} {l l' : List α} (hperm : List.Perm l l')
    {p : α → Bool} {x : α} (hx : x ∈ l) (hpx : p x = true)
    (huniq : ∀ y ∈ l, p y = true → y = x) : l'.find? p = some x := by
  have hsome : (l'.find? p).isSome := by
    rw [List.find?_isSome]
    exact ⟨x, hperm.mem_iff.mp hx, hpx⟩
  obtain ⟨a, ha⟩ := Option.isSome_iff_exists.mp hsome
  have hmem : a ∈ l := hperm.mem_iff.mpr (List.mem_of_find?_eq_some ha)
  rw [ha, huniq a hmem (List.find?_some ha)]

theorem bookCountRow_of_key {brs : List BorrowRow} {bk : Book} {j : Nat}
    (ht : tkey bk = some j) :
    bookCountRow brs bk =
      (if ((brs.filter (fun br => br._book_id == j)).length == 0) = true
       then Option.none
       else some (j, bk._title, bk._author,
         (brs.filter (fun br => br._book_id == j)).length)) := by
  unfold bookCountRow
  rw [ht]

theorem reportCount_eq_zero {books : List Book} {brs : List BorrowRow} {i : Nat}
    (h : ∀ br ∈ brs, br._book_id ≠ i) :
    reportCount (get_book_borrow_counts books brs) i = 0 := by
  unfold reportCount get_book_borrow_counts
  rw [find?_eq_none_of_all_false ?_]
  intro y hy
  have hy' := (List.perm_insertionSort _ _).mem_iff.mp hy
  rw [List.mem_filterMap] at hy'
  obtain ⟨bk2, _, hf⟩ := hy'
  rcases ht : tkey bk2 with _ | j
  · unfold bookCountRow at hf
    rw [ht] at hf
    cases hf
  · rw [bookCountRow_of_key ht] at hf
    by_cases hc : ((brs.filter (fun br => br._book_id == j)).length == 0) = true
    · rw [if_pos hc] at hf
      cases hf
    · rw [if_neg hc] at hf
      cases hf
      apply beq_eq_false_iff_ne.mpr
      intro hji
      subst hji
      apply hc
      have hnil : brs.filter (fun br => br._book_id == j) = [] :=
        List.filter_eq_nil_iff.mpr (fun br hbr => by simp [h br hbr])
      rw [hnil]
      rfl

theorem reportCount_after_new_borrow {books : List Book} {brs : List BorrowRow}
    {bk : Book} {i : Nat} {r' : BorrowRow}
    (hnd : (books.map tkey).Nodup) (hmem : bk ∈ books) (hkey : tkey bk = some i)
    (h : ∀ br ∈ brs, br._book_id ≠ i) (hrb : r'._book_id = i) :
    reportCount (get_book_borrow_counts books (brs ++ [r'])) i = 1 := by
  have hfilter : (brs ++ [r']).filter (fun br => br._book_id == i) = [r'] := by
    rw [List.filter_append,
      List.filter_eq_nil_iff.mpr (fun br hbr => by simp [h br hbr])]
    simp [hrb]
  have hrow : bookCountRow (brs ++ [r']) bk
      = some (i, bk._title, bk._author, 1) := by
    rw [bookCountRow_of_key hkey, hfilter]
    rfl
  have hx : (i, bk._title, bk._author, 1)
      ∈ books.filterMap (bookCountRow (brs ++ [r'])) :=
    List.mem_filterMap.mpr ⟨bk, hmem, hrow⟩
  have huniq : ∀ y ∈ books.filterMap (bookCountRow (brs ++ [r'])),
      (y.1 == i) = true → y = (i, bk._title, bk._author, 1) := by
    intro y hy hyi
    rw [List.mem_filterMap] at hy
    obtain ⟨bk2, hbk2, hf⟩ := hy
    rcases ht : tkey bk2 with _ | j
    · unfold bookCountRow at hf
      rw [ht] at hf
      cases hf
    · rw [bookCountRow_of_key ht] at hf
      by_cases hc : (((brs ++ [r']).filter (fun br => br._book_id == j)).length == 0) = true
      · rw [if_pos hc] at hf
        cases hf
      · rw [if_neg hc] at hf
        cases hf
        have hji : j = i := by simpa using hyi
        subst hji
        have hbk2bk : bk2 = bk :=
          List.inj_on_of_nodup_map hnd hbk2 hmem (ht.trans hkey.symm)
        subst hbk2bk
        rw [hfilter]
        rfl
  have hfind : (get_book_borrow_counts books (brs ++ [r'])).find?
      (fun y => y.1 == i) = some (i, bk._title, bk._author, 1) := by
    unfold get_book_borrow_counts
    exact find?_of_perm_unique (List.perm_insertionSort _ _).symm hx
      (by simp) huniq
  unfold reportCount
  rw [hfind]

/-- C5: for a book with no borrow row referencing it, saving a new
borrow row that references it removes the book from the
"books never borrowed" report (in which it previously appeared), and
its "borrow counts per book" figure rises from 0 by exactly one. -/
theorem report_consistency (books : Table Book) (borrows : Table BorrowRow)
    (bk : Book) (i : Nat) (r : BorrowRow)
    (hwf : books.wf = true) (hmem : bk ∈ books.rows) (hkey : tkey bk = some i)
    (hnone : ∀ br ∈ borrows.rows, br._book_id ≠ i) (hrb : r._book_id = i) :
    bk ∈ get_books_never_borrowed books.rows borrows.rows
    ∧ bk ∉ get_books_never_borrowed books.rows (DataAccess.save borrows r).1.rows
    ∧ reportCount (get_book_borrow_counts books.rows borrows.rows) i = 0
    ∧ reportCount
        (get_book_borrow_counts books.rows (DataAccess.save borrows r).1.rows) i
      = reportCount (get_book_borrow_counts books.rows borrows.rows) i + 1 := by
  have hnd : (books.rows.map tkey).Nodup := by
    unfold Table.wf at hwf
    simp only [Bool.and_eq_true, decide_eq_true_eq] at hwf
    exact hwf.2
  have hrows' : (DataAccess.save borrows r).1.rows
      = borrows.rows ++ [HasId.setIdNat r borrows.nextId] := rfl
  have hrb' : (HasId.setIdNat r borrows.nextId)._book_id = i := hrb
  have hzero : reportCount (get_book_borrow_counts books.rows borrows.rows) i = 0 :=
    reportCount_eq_zero hnone
  refine ⟨?_, ?_, hzero, ?_⟩
  · unfold get_books_never_borrowed
    rw [List.mem_filter]
    refine ⟨hmem, ?_⟩
    rw [Bool.not_eq_true']
    apply List.any_eq_false.mpr
    intro br hbr
    rw [hkey]
    simp [Ne.symm (hnone br hbr)]
  · rw [hrows']
    unfold get_books_never_borrowed
    rw [List.mem_filter]
    rintro ⟨-, hcond⟩
    rw [Bool.not_eq_true'] at hcond
    have : (borrows.rows ++ [HasId.setIdNat r borrows.nextId]).any
        (fun br => tkey bk == some br._book_id) = true := by
      rw [List.any_append]
      simp [hkey, hrb']
    rw [this] at hcond
    cases hcond
  · rw [hrows', hzero]
    exact reportCount_after_new_borrow hnd hmem hkey hnone hrb'

/-- Witness for C5: book 1 with an empty borrow table, then one borrow
row referencing it. -/
theorem report_consistency_witness :
    bookA1 ∈ get_books_never_borrowed booksT.rows emptyBorrows.rows
    ∧ bookA1 ∉ get_books_never_borrowed booksT.rows
        (DataAccess.save emptyBorrows rowR).1.rows
    ∧ reportCount (get_book_borrow_counts booksT.rows emptyBorrows.rows) 1 = 0
    ∧ reportCount (get_book_borrow_counts booksT.rows
        (DataAccess.save emptyBorrows rowR).1.rows) 1
      = reportCount (get_book_borrow_counts booksT.rows emptyBorrows.rows) 1
          + 1 :=
  report_consistency booksT emptyBorrows bookA1 1 rowR (by decide)
    (by decide) (by decide) (by decide) (by decide)

/-- C6: validator boundaries — `amount_validator` rejects 0 and -1 and
accepts 1; `name_validator` rejects `"12@"` and accepts `"John Doe"`;
`date_validator` parses `"2024-04-10"` to the calendar date
(2024, 4, 10) and rejects the integer 123 by raising; every rejection
raises a descriptive (non-empty) error rather than coercing or
clamping. -/
theorem validator_boundaries :
    amount_validator (.int 0) "Invalid pages number!"
        = Except.error "Invalid pages number!"
    ∧ amount_validator (.int (-1)) "Invalid pages number!"
        = Except.error "Invalid pages number!"
    ∧ amount_validator (.int 1) "Invalid pages number!" = Except.ok (.int 1)
    ∧ name_validator (.str "12@") "Invalid name!"
        = Except.error "Invalid name!"
    ∧ name_validator (.str "John Doe") "Invalid name!" = Except.ok "John Doe"
    ∧ date_validator (.str "2024-04-10") "Invalid borrow date!"
        = Except.ok ⟨⟨2024, 4, 10⟩, by decide⟩
    ∧ (∃ msg, date_validator (.int 123) "Invalid borrow date!"
        = Except.error msg ∧ msg ≠ "") := by
  exact ⟨rfl, rfl, rfl, rfl, rfl, rfl, ⟨_, rfl, by decide⟩⟩

/-- C7: constructing a Borrow whose member argument is null or not a
Member instance, or whose book argument is null or not a Book instance,
raises, and in the construct-then-save flow of `add_borrow` nothing ever
reaches the store: the borrows table is returned untouched with no saved
row. -/
theorem borrow_referential_guard (borrows : Table BorrowRow)
    (mkRow : Borrow → BorrowRow) (m : Ref Member) (b : Ref Book) (d : PyVal)
    (h : m.isInst = false ∨ b.isInst = false) :
    (∃ msg, Borrow.new m b d = Except.error msg)
    ∧ add_borrow_flow borrows mkRow m b d = (borrows, Option.none) := by
  have herr : ∃ msg, Borrow.new m b d = Except.error msg := by
    cases m with
    | inst mm =>
        cases b with
        | inst bb =>
            rcases h with h | h
            · simp [Ref.isInst] at h
            · simp [Ref.isInst] at h
        | null => exact ⟨_, rfl⟩
        | other v => exact ⟨_, rfl⟩
    | null => exact ⟨_, rfl⟩
    | other v => exact ⟨_, rfl⟩
  obtain ⟨msg, hmsg⟩ := herr
  refine ⟨⟨msg, hmsg⟩, ?_⟩
  unfold add_borrow_flow
  rw [hmsg]

/-- Witness for C7: a null member reference with a proper book. -/
theorem borrow_referential_guard_witness :
    (∃ msg, Borrow.new Ref.null (Ref.inst bookA1) (.str "2024-04-10")
        = Except.error msg)
    ∧ add_borrow_flow emptyBorrows (fun _ => rowR) Ref.null (Ref.inst bookA1)
        (.str "2024-04-10") = (emptyBorrows, Option.none) :=
  borrow_referential_guard emptyBorrows (fun _ => rowR) Ref.null
    (Ref.inst bookA1) (.str "2024-04-10") (Or.inl rfl)

/-- C9: the `\s` class in the name and title patterns matches any
whitespace character, tab and newline included, anywhere in the value,
so both validators return such strings unchanged. -/
theorem whitespace_accepted_in_names :
    name_validator (.str "John\tDoe") "Invalid name!" = Except.ok "John\tDoe"
    ∧ name_validator (.str "John\nDoe") "Invalid name!" = Except.ok "John\nDoe"
    ∧ title_validator (.str "Python\t3") "Invalid book title!"
        = Except.ok "Python\t3"
    ∧ title_validator (.str "Python\n3") "Invalid book title!"
        = Except.ok "Python\n3" :=
  ⟨rfl, rfl, rfl, rfl⟩

/-- C10: Python's `bool` is a subclass of `int`, so `amount_validator`
accepts `True` and returns it unchanged; a Book constructed with
`pages = True` succeeds with `pages` equal to `True` (numerically 1),
and assigning `True` as an entity identity is likewise accepted. -/
theorem bool_true_accepted_as_amount :
    amount_validator (.bool true) "Invalid pages number!"
        = Except.ok (.bool true)
    ∧ Book.new (.str "Python 101") (.str "Michael") (.bool true)
        = Except.ok { _id := Option.none, _title := "Python 101",
                      _author := "Michael", _pages := .bool true }
    ∧ pyIntValue (.bool true) = 1
    ∧ Member.setId memberA (.bool true)
        = Except.ok { memberA with _id := some (.bool true) } :=
  ⟨rfl, rfl, rfl, rfl⟩

theorem currentTuple_ok_length {b : Fetched} {t : List PyVal}
    (h : currentTuple b = Except.ok t) : t.length = 6 := by
  unfold currentTuple at h
  cases hbk : b.book with
  | none =>
      rw [hbk] at h
      dsimp only [] at h
      cases h
  | some bk =>
      rw [hbk] at h
      dsimp only [] at h
      cases hmb : b.member with
      | none =>
          rw [hmb] at h
          dsimp only [] at h
          cases h
      | some mb =>
          rw [hmb] at h
          dsimp only [] at h
          cases h
          rfl

theorem allBorrowsTuple_ok_length {b : Fetched} {t : List PyVal}
    (h : allBorrowsTuple b = Except.ok t) : t.length = 8 := by
  unfold allBorrowsTuple at h
  cases hmb : b.member with
  | none =>
      rw [hmb] at h
      dsimp only [] at h
      cases h
  | some mb =>
      rw [hmb] at h
      dsimp only [] at h
      cases hbk : b.book with
      | none =>
          rw [hbk] at h
          dsimp only [] at h
          cases h
      | some bk =>
          rw [hbk] at h
          dsimp only [] at h
          cases h
          rfl

/-- C8: per-row degrade policy of the report controller — both report
functions return exactly one output row per fetched row; a row whose
tuple construction succeeds appears as that tuple (of the report's
arity), a row whose tuple construction raises appears as the
error-marker row of the same arity whose first element is "[Error]",
and the remaining rows are unaffected. -/
theorem report_row_degrade (rows : List Fetched) :
    ((get_currently_borrowed_info rows).length = rows.length
      ∧ ∀ (i : Nat) (b : Fetched), rows[i]? = some b →
          (∀ t, currentTuple b = Except.ok t →
              (get_currently_borrowed_info rows)[i]? = some t ∧ t.length = 6)
          ∧ (∀ e, currentTuple b = Except.error e →
              (get_currently_borrowed_info rows)[i]? = some currentErrRow))
    ∧ (currentErrRow.length = 6
        ∧ currentErrRow.head? = some (.str "[Error]"))
    ∧ ((get_report_all_borrows_info rows).length = rows.length
      ∧ ∀ (i : Nat) (b : Fetched), rows[i]? = some b →
          (∀ t, allBorrowsTuple b = Except.ok t →
              (get_report_all_borrows_info rows)[i]? = some t ∧ t.length = 8)
          ∧ (∀ e, allBorrowsTuple b = Except.error e →
              (get_report_all_borrows_info rows)[i]? = some allBorrowsErrRow))
    ∧ (allBorrowsErrRow.length = 8
        ∧ allBorrowsErrRow.head? = some (.str "[Error]")) := by
  refine ⟨⟨by simp [get_currently_borrowed_info], ?_⟩, ⟨rfl, rfl⟩,
    ⟨by simp [get_report_all_borrows_info], ?_⟩, ⟨rfl, rfl⟩⟩
  · intro i b hb
    constructor
    · intro t ht
      refine ⟨?_, currentTuple_ok_length ht⟩
      unfold get_currently_borrowed_info
      rw [List.getElem?_map _ rows i, hb]
      simp [ht]
    · intro e he
      unfold get_currently_borrowed_info
      rw [List.getElem?_map _ rows i, hb]
      simp [he]
  · intro i b hb
    constructor
    · intro t ht
      refine ⟨?_, allBorrowsTuple_ok_length ht⟩
      unfold get_report_all_borrows_info
      rw [List.getElem?_map _ rows i, hb]
      simp [ht]
    · intro e he
      unfold get_report_all_borrows_info
      rw [List.getElem?_map _ rows i, hb]
      simp [he]

/-- Witness for C8: a resolved row followed by a row with a missing
book join — the bad row degrades to the marker, the good row and the
total row count are unaffected. -/
theorem report_row_degrade_witness :
    (get_currently_borrowed_info [fetchedGood, fetchedBad])[1]?
        = some currentErrRow
    ∧ (get_currently_borrowed_info [fetchedGood, fetchedBad])[0]?
        = some [.int 1, .str "Python 101", .int 1, .str "Alice", .str "Smith",
                .str "2024-04-10"]
    ∧ (get_currently_borrowed_info [fetchedGood, fetchedBad]).length = 2 := by
  have h := report_row_degrade [fetchedGood, fetchedBad]
  refine ⟨?_, ?_, h.1.1⟩
  · exact (h.1.2 1 fetchedBad rfl).2
      "AttributeError: NoneType has no attribute id" rfl
  · exact ((h.1.2 0 fetchedGood rfl).1
      [.int 1, .str "Python 101", .int 1, .str "Alice", .str "Smith",
       .str "2024-04-10"] rfl).1

end LibMgmt
